import Mathlib

/-!
Shallow embedding of the ink! ERC-20 contract in `src/lib.rs` (module `erc20`),
together with proofs of its specified properties.

The contract state `Erc20` holds a `total_supply`, a `balances` map and an
`allowance` map.  Storage maps (`ink_storage::collections::HashMap`) are
modelled as association lists with overwrite-on-insert, matching
`HashMap::insert` / `HashMap::get` with the `unwrap_or(&0)` default used by
the contract.

Each message handler is embedded as a pure function taking the host-supplied
caller identity explicitly and returning its result value, the successor
state, and the list of events it emits (`self.env().emit_event(..)`).
-/

namespace erc20

/-- ink `AccountId`: an opaque, equality-comparable identity.  Modelled as `Nat`. -/
abbrev AccountId := Nat

/-- Modelled from the spec: ink's `Balance` is a machine integer (`u128`), but the
build profile fixing Rust's overflow semantics is not part of the source, and the
spec leaves credit-side overflow explicitly unspecified, describing "an implicit
wide integer type with no bound"; balances are therefore modelled as `Nat`. -/
abbrev Balance := Nat

/-- `ink_storage::collections::HashMap`, modelled as an association list with
unique keys maintained by overwrite-on-insert. -/
abbrev StorageHashMap (K V : Type) : Type := List (K × V)

namespace StorageHashMap

/-- `StorageHashMap::new()`. -/
def new {K V : Type} : StorageHashMap K V := []

/-- `HashMap::get(&k)`: the first (unique) entry stored under `k`, if any. -/
def get? {K V : Type} [DecidableEq K] : StorageHashMap K V → K → Option V
  | [], _ => none
  | (k', v) :: rest, k => if k' = k then some v else get? rest k

/-- `HashMap::insert(k, v)`: overwrite the entry under `k`, or append it. -/
def insert {K V : Type} [DecidableEq K] : StorageHashMap K V → K → V → StorageHashMap K V
  | [], k, v => [(k, v)]
  | (k', v') :: rest, k, v =>
      if k' = k then (k, v) :: rest else (k', v') :: insert rest k v

end StorageHashMap

/-- The `#[ink(storage)]` struct `Erc20`. -/
structure Erc20 where
  total_supply : Balance
  balances : StorageHashMap AccountId Balance
  allowance : StorageHashMap (AccountId × AccountId) Balance
deriving DecidableEq

/-- The `#[ink(event)]` struct `Transfer`. -/
structure Transfer where
  «from» : AccountId
  «to» : AccountId
  value : Balance
deriving DecidableEq

/-- The contract's error enum. -/
inductive Error where
  | InsufficientBallance
deriving DecidableEq

/-- `pub type Result<T> = core::result::Result<T, Error>`. -/
abbrev Result (T : Type) := Except Error T

/-- Constructor `new(total_supply)`: credits the whole supply to the
constructing caller and starts with an empty allowance map. -/
def new (caller : AccountId) (total_supply : Balance) : Erc20 :=
  { total_supply := total_supply
    balances := StorageHashMap.insert StorageHashMap.new caller total_supply
    allowance := StorageHashMap.new }

/-- Constructor `default()`: delegates to `new(Default::default())`, i.e. `new 0`. -/
def default (caller : AccountId) : Erc20 :=
  new caller 0

/-- Message `total_supply()`. -/
def total_supply (self : Erc20) : Balance :=
  self.total_supply

/-- Message `balance_of(owner)`: `*self.balances.get(&owner).unwrap_or(&0)`. -/
def balance_of (self : Erc20) (owner : AccountId) : Balance :=
  (StorageHashMap.get? self.balances owner).getD 0

/-- Message `allowance(owner, spender)`: `*self.allowance.get(&(owner, spender)).unwrap_or(&0)`. -/
def allowance (self : Erc20) (owner spender : AccountId) : Balance :=
  (StorageHashMap.get? self.allowance (owner, spender)).getD 0

/-- Private `transfer_helper(from, to, value)`: checked debit of `from`,
credit of `to` (reading `to`'s balance after the debit), emitting one
`Transfer` event on success. -/
def transfer_helper (self : Erc20) («from» «to» : AccountId) (value : Balance) :
    Result Unit × Erc20 × List Transfer :=
  let from_balance := balance_of self «from»
  if from_balance < value then
    (Except.error Error.InsufficientBallance, self, [])
  else
    let self1 : Erc20 :=
      { self with balances := StorageHashMap.insert self.balances «from» (from_balance - value) }
    let to_balance := balance_of self1 «to»
    let self2 : Erc20 :=
      { self1 with balances := StorageHashMap.insert self1.balances «to» (to_balance + value) }
    (Except.ok (), self2, [{ «from» := «from», «to» := «to», value := value }])

/-- Message `transer(to, value)` (name as in the source): transfer from the
host-supplied caller to `to`. -/
def transer (self : Erc20) (caller «to» : AccountId) (value : Balance) :
    Result Unit × Erc20 × List Transfer :=
  transfer_helper self caller «to» value

/-- Message `transer_from(from, value)` (name as in the source): transfer from
`from` to the host-supplied caller, with no allowance check. -/
def transer_from (self : Erc20) (caller «from» : AccountId) (value : Balance) :
    Result Unit × Erc20 × List Transfer :=
  transfer_helper self «from» caller value

/-- Message `burn(value)`: clamp the caller's balance to `0` when it is below
`value`, otherwise subtract `value` exactly.  Never fails, emits nothing. -/
def burn (self : Erc20) (caller : AccountId) (value : Balance) : Erc20 × List Transfer :=
  let balance := balance_of self caller
  if balance < value then
    ({ self with balances := StorageHashMap.insert self.balances caller 0 }, [])
  else
    ({ self with balances := StorageHashMap.insert self.balances caller (balance - value) }, [])

/-- Message `issue(to, value)`: unconditionally credit `to`; always `Ok(())`. -/
def issue (self : Erc20) («to» : AccountId) (value : Balance) :
    Result Unit × Erc20 × List Transfer :=
  (Except.ok (),
   { self with balances := StorageHashMap.insert self.balances «to» (balance_of self «to» + value) },
   [])

/-- Ledger states reachable from a constructor by any sequence of messages. -/
inductive Reachable : Erc20 → Prop where
  | con (caller : AccountId) (init : Balance) : Reachable (new caller init)
  | con_default (caller : AccountId) : Reachable (default caller)
  | step_transer {s : Erc20} (caller «to» : AccountId) (value : Balance) :
      Reachable s → Reachable (transer s caller «to» value).2.1
  | step_transer_from {s : Erc20} (caller «from» : AccountId) (value : Balance) :
      Reachable s → Reachable (transer_from s caller «from» value).2.1
  | step_burn {s : Erc20} (caller : AccountId) (value : Balance) :
      Reachable s → Reachable (burn s caller value).1
  | step_issue {s : Erc20} («to» : AccountId) (value : Balance) :
      Reachable s → Reachable (issue s «to» value).2.1

/-! ### Association-list lemmas -/

theorem get?_insert_self {K V : Type} [DecidableEq K]
    (m : StorageHashMap K V) (k : K) (v : V) :
    StorageHashMap.get? (StorageHashMap.insert m k v) k = some v := by
  induction m with
  | nil => simp [StorageHashMap.insert, StorageHashMap.get?]
  | cons head tail ih =>
      obtain ⟨k', v'⟩ := head
      by_cases h : k' = k
      · simp [StorageHashMap.insert, StorageHashMap.get?, h]
      · simp [StorageHashMap.insert, StorageHashMap.get?, h, ih]

theorem get?_insert_ne {K V : Type} [DecidableEq K]
    (m : StorageHashMap K V) (k a : K) (v : V) (h : a ≠ k) :
    StorageHashMap.get? (StorageHashMap.insert m k v) a = StorageHashMap.get? m a := by
  have hka : ¬ k = a := fun hk => h hk.symm
  induction m with
  | nil =>
      simp [StorageHashMap.insert, StorageHashMap.get?, hka]
  | cons head tail ih =>
      obtain ⟨k', v'⟩ := head
      by_cases hk : k' = k
      · subst hk
        simp [StorageHashMap.insert, StorageHashMap.get?, hka]
      · simp [StorageHashMap.insert, StorageHashMap.get?, hk, ih]

theorem balance_of_insert_self (s : Erc20) (k : AccountId) (v : Balance) :
    balance_of { s with balances := StorageHashMap.insert s.balances k v } k = v := by
  simp [balance_of, get?_insert_self]

theorem balance_of_insert_ne (s : Erc20) (k a : AccountId) (v : Balance) (h : a ≠ k) :
    balance_of { s with balances := StorageHashMap.insert s.balances k v } a
      = balance_of s a := by
  simp [balance_of, get?_insert_ne _ _ _ _ h]


theorem get?_insert {K V : Type} [DecidableEq K] (m : StorageHashMap K V) (k a : K) (v : V) :
    StorageHashMap.get? (StorageHashMap.insert m k v) a
      = if k = a then some v else StorageHashMap.get? m a := by
  induction m with
  | nil => simp [StorageHashMap.insert, StorageHashMap.get?]
  | cons head tail ih =>
      obtain ⟨k', v'⟩ := head
      by_cases hk : k' = k
      · subst hk
        by_cases ha : k' = a <;> simp [StorageHashMap.insert, StorageHashMap.get?, ha]
      · by_cases ha : k' = a
        · subst ha
          have hka : ¬ k = k' := fun hh => hk hh.symm
          simp [StorageHashMap.insert, StorageHashMap.get?, hk, hka]
        · simp [StorageHashMap.insert, StorageHashMap.get?, hk, ha, ih]

/-! ### Frame lemmas for the non-balance fields -/

theorem transfer_helper_total_supply (s : Erc20) («from» «to» : AccountId) (value : Balance) :
    (transfer_helper s «from» «to» value).2.1.total_supply = s.total_supply := by
  simp only [transfer_helper]
  split <;> rfl

theorem transfer_helper_allowance_frame (s : Erc20) («from» «to» : AccountId) (value : Balance) :
    (transfer_helper s «from» «to» value).2.1.allowance = s.allowance := by
  simp only [transfer_helper]
  split <;> rfl

theorem burn_total_supply (s : Erc20) (caller : AccountId) (value : Balance) :
    (burn s caller value).1.total_supply = s.total_supply := by
  simp only [burn]
  split <;> rfl

theorem burn_allowance_frame (s : Erc20) (caller : AccountId) (value : Balance) :
    (burn s caller value).1.allowance = s.allowance := by
  simp only [burn]
  split <;> rfl

theorem issue_total_supply (s : Erc20) («to» : AccountId) (value : Balance) :
    (issue s «to» value).2.1.total_supply = s.total_supply := rfl

theorem issue_allowance_frame (s : Erc20) («to» : AccountId) (value : Balance) :
    (issue s «to» value).2.1.allowance = s.allowance := rfl


/-! ### Arithmetic helpers -/

theorem nat_sub_add_sum (a b v : Nat) (h : v ≤ a) : a - v + (b + v) = a + b := by omega

theorem nat_sub_add_self_twice (a v : Nat) (h : v ≤ a) : a - v + v + (a - v + v) = a + a := by
  omega

/-! ### Claim theorems -/

/-- Claim C4: for every ledger state where the caller's balance `b` satisfies
`value ≤ b` and `caller ≠ to`, a successful `transer` leaves the caller's
balance at `b - value` and increases the recipient's balance by exactly
`value`; and for every self-transfer (`caller = to`) with `value ≤ b`, the
caller's balance is unchanged after the call. -/
theorem transer_success_balances (s : Erc20) (caller «to» : AccountId) (value : Balance)
    (h : value ≤ balance_of s caller) :
    (caller ≠ «to» →
        balance_of (transer s caller «to» value).2.1 caller = balance_of s caller - value
      ∧ balance_of (transer s caller «to» value).2.1 «to» = balance_of s «to» + value)
    ∧ (caller = «to» →
        balance_of (transer s caller «to» value).2.1 caller = balance_of s caller) := by
  have hlt : ¬ balance_of s caller < value := Nat.not_lt.mpr h
  simp only [balance_of] at h
  constructor
  · intro hne
    constructor
    · simp only [transer, transfer_helper, if_neg hlt]
      simp [balance_of, get?_insert, Ne.symm hne]
    · simp only [transer, transfer_helper, if_neg hlt]
      simp [balance_of, get?_insert, hne, Ne.symm hne]
  · intro heq
    subst heq
    simp only [transer, transfer_helper, if_neg hlt]
    simp [balance_of, get?_insert]
    exact Nat.sub_add_cancel h

/-- Witness for C4 at a concrete ledger: after `new 1 1000` and
`transer 1 2 100`, account 1 holds `1000 - 100` and account 2 holds `0 + 100`. -/
theorem transer_success_balances_witness :
    balance_of (transer (new 1 1000) 1 2 100).2.1 1 = balance_of (new 1 1000) 1 - 100
    ∧ balance_of (transer (new 1 1000) 1 2 100).2.1 2 = balance_of (new 1 1000) 2 + 100 :=
  (transer_success_balances (new 1 1000) 1 2 100 (by decide)).1 (by decide)

/-- Claim C9: every successful `transer` (and `transer_from`) preserves the sum
of the sender's and the receiver's balances, including the self-transfer case. -/
theorem transfer_preserves_two_party_sum (s : Erc20) (caller «to» «from» : AccountId)
    (value : Balance)
    (h1 : value ≤ balance_of s caller) (h2 : value ≤ balance_of s «from») :
    balance_of (transer s caller «to» value).2.1 caller
        + balance_of (transer s caller «to» value).2.1 «to»
      = balance_of s caller + balance_of s «to»
    ∧ balance_of (transer_from s caller «from» value).2.1 «from»
        + balance_of (transer_from s caller «from» value).2.1 caller
      = balance_of s «from» + balance_of s caller := by
  have hlt1 : ¬ balance_of s caller < value := Nat.not_lt.mpr h1
  have hlt2 : ¬ balance_of s «from» < value := Nat.not_lt.mpr h2
  simp only [balance_of] at h1 h2
  constructor
  · by_cases hne : caller = «to»
    · subst hne
      simp only [transer, transfer_helper, if_neg hlt1]
      simp [balance_of, get?_insert]
      exact nat_sub_add_self_twice _ _ h1
    · simp only [transer, transfer_helper, if_neg hlt1]
      simp [balance_of, get?_insert, hne, Ne.symm hne]
      exact nat_sub_add_sum _ _ _ h1
  · by_cases hne : «from» = caller
    · subst hne
      simp only [transer_from, transfer_helper, if_neg hlt2]
      simp [balance_of, get?_insert]
      exact nat_sub_add_self_twice _ _ h2
    · simp only [transer_from, transfer_helper, if_neg hlt2]
      simp [balance_of, get?_insert, hne, Ne.symm hne]
      exact nat_sub_add_sum _ _ _ h2

/-- Witness for C9 at a concrete ledger: transferring 100 from account 1 to
account 2 in `new 1 1000` preserves the two parties' balance sum. -/
theorem transfer_preserves_two_party_sum_witness :
    balance_of (transer (new 1 1000) 1 2 100).2.1 1
        + balance_of (transer (new 1 1000) 1 2 100).2.1 2
      = balance_of (new 1 1000) 1 + balance_of (new 1 1000) 2 :=
  (transfer_preserves_two_party_sum (new 1 1000) 1 2 1 100 (by decide) (by decide)).1

/-- Claim C3: `transer` returns `InsufficientBallance` iff the caller's balance
is strictly below `value`; in that case the whole state (balances, allowance,
`total_supply`) is unchanged and no event is emitted; and the same holds for
`transer_from` with `from` as the debited account. -/
theorem insufficient_balance_iff_and_no_mutation (s : Erc20)
    (caller «to» «from» : AccountId) (value : Balance) :
    ((transer s caller «to» value).1 = Except.error Error.InsufficientBallance
      ↔ balance_of s caller < value)
    ∧ (balance_of s caller < value →
        (transer s caller «to» value).2.1 = s ∧ (transer s caller «to» value).2.2 = [])
    ∧ ((transer_from s caller «from» value).1 = Except.error Error.InsufficientBallance
      ↔ balance_of s «from» < value)
    ∧ (balance_of s «from» < value →
        (transer_from s caller «from» value).2.1 = s
      ∧ (transer_from s caller «from» value).2.2 = []) := by
  refine ⟨?_, ?_, ?_, ?_⟩
  · constructor
    · intro hres
      by_contra hge
      simp [transer, transfer_helper, hge] at hres
    · intro hlt
      simp [transer, transfer_helper, hlt]
  · intro hlt
    constructor <;> simp [transer, transfer_helper, hlt]
  · constructor
    · intro hres
      by_contra hge
      simp [transer_from, transfer_helper, hge] at hres
    · intro hlt
      simp [transer_from, transfer_helper, hlt]
  · intro hlt
    constructor <;> simp [transer_from, transfer_helper, hlt]

/-- Witness for C3 at a concrete ledger: `transer (new 1 100) 1 2 200` leaves
the state unchanged and emits nothing. -/
theorem insufficient_balance_iff_and_no_mutation_witness :
    (transer (new 1 100) 1 2 200).2.1 = new 1 100
    ∧ (transer (new 1 100) 1 2 200).2.2 = [] :=
  (insufficient_balance_iff_and_no_mutation (new 1 100) 1 2 2 200).2.1 (by decide)

/-- Claim C5: `burn` never fails (it is a total function into states): when the
caller's balance is below `value` the balance is clamped to exactly `0`, and
otherwise it decreases by exactly `value`. -/
theorem burn_clamps_or_subtracts (s : Erc20) (caller : AccountId) (value : Balance) :
    (balance_of s caller < value → balance_of (burn s caller value).1 caller = 0)
    ∧ (value ≤ balance_of s caller →
        balance_of (burn s caller value).1 caller = balance_of s caller - value) := by
  constructor
  · intro hlt
    simp only [burn, if_pos hlt]
    simp [balance_of, get?_insert]
  · intro hge
    have hlt : ¬ balance_of s caller < value := Nat.not_lt.mpr hge
    simp only [burn, if_neg hlt]
    simp [balance_of, get?_insert]

/-- Witness for C5 at a concrete ledger: burning 1500 out of a balance of 1000
clamps the balance to 0. -/
theorem burn_clamps_or_subtracts_witness :
    balance_of (burn (new 1 1000) 1 1500).1 1 = 0 :=
  (burn_clamps_or_subtracts (new 1 1000) 1 1500).1 (by decide)


/-- Claim C1: for every ledger state, caller, account `from`, and value not
exceeding `from`'s balance, `transer_from` invoked by the caller behaves
exactly like `transer` with `from` as sender and the caller as receiver: it
debits `from` by `value`, credits the caller by `value`, and consults or
decrements no allowance entry (its outcome is independent of the allowance
map, which passes through unchanged). -/
theorem transer_from_is_transfer_without_allowance (s : Erc20)
    (caller «from» : AccountId) (value : Balance)
    (h : value ≤ balance_of s «from») :
    transer_from s caller «from» value = transer s «from» caller value
    ∧ (transer_from s caller «from» value).2.1.allowance = s.allowance
    ∧ (∀ al, (transer_from { s with allowance := al } caller «from» value).1
          = (transer_from s caller «from» value).1
      ∧ (transer_from { s with allowance := al } caller «from» value).2.1.balances
          = (transer_from s caller «from» value).2.1.balances
      ∧ (transer_from { s with allowance := al } caller «from» value).2.1.allowance = al)
    ∧ («from» ≠ caller →
        balance_of (transer_from s caller «from» value).2.1 «from»
          = balance_of s «from» - value
      ∧ balance_of (transer_from s caller «from» value).2.1 caller
          = balance_of s caller + value)
    ∧ («from» = caller →
        balance_of (transer_from s caller «from» value).2.1 «from» = balance_of s «from») := by
  have hlt : ¬ balance_of s «from» < value := Nat.not_lt.mpr h
  simp only [balance_of] at h
  refine ⟨rfl, transfer_helper_allowance_frame s «from» caller value, ?_, ?_, ?_⟩
  · intro al
    have hc : balance_of { s with allowance := al } «from» = balance_of s «from» := rfl
    simp only [transer_from, transfer_helper, hc]
    split <;> exact ⟨rfl, rfl, rfl⟩
  · intro hne
    constructor
    · simp only [transer_from, transfer_helper, if_neg hlt]
      simp [balance_of, get?_insert, Ne.symm hne]
    · simp only [transer_from, transfer_helper, if_neg hlt]
      simp [balance_of, get?_insert, hne, Ne.symm hne]
  · intro heq
    subst heq
    simp only [transer_from, transfer_helper, if_neg hlt]
    simp [balance_of, get?_insert]
    exact Nat.sub_add_cancel h

/-- Witness for C1 at a concrete ledger: in `new 1 100`, account 2 calling
`transer_from 1 50` debits account 1 by 50 and credits account 2 by 50. -/
theorem transer_from_is_transfer_without_allowance_witness :
    balance_of (transer_from (new 1 100) 2 1 50).2.1 1 = balance_of (new 1 100) 1 - 50
    ∧ balance_of (transer_from (new 1 100) 2 1 50).2.1 2 = balance_of (new 1 100) 2 + 50 :=
  (transer_from_is_transfer_without_allowance (new 1 100) 2 1 50 (by decide)).2.2.2.1
    (by decide)

/-- Counterexample to claim C2: `transer_from` does emit an event.  In
`new 1 100`, account 2 calling `transer_from 1 50` succeeds and emits exactly
one `Transfer` event, contradicting the claim that `transer_from` emits no
event on any input. -/
theorem transer_from_emits_event_counterexample :
    (transer_from (new 1 100) 2 1 50).1 = Except.ok ()
    ∧ (transer_from (new 1 100) 2 1 50).2.2
        = [{ «from» := 1, «to» := 2, value := 50 }] := by
  exact ⟨rfl, rfl⟩

/-- Amended claim C2: every successful `transer` call emits exactly one
`Transfer` event `{from: caller, to, value}`, and every successful
`transer_from` call (which shares `transfer_helper`) likewise emits exactly
one `Transfer` event `{from, to: caller, value}`; failed transfers emit no
event, and `burn` and `issue` emit no event on any input. -/
theorem events_emitted_amended (s : Erc20) (caller «to» «from» : AccountId)
    (value : Balance) :
    (¬ balance_of s caller < value →
        (transer s caller «to» value).2.2
          = [{ «from» := caller, «to» := «to», value := value }])
    ∧ (balance_of s caller < value → (transer s caller «to» value).2.2 = [])
    ∧ (¬ balance_of s «from» < value →
        (transer_from s caller «from» value).2.2
          = [{ «from» := «from», «to» := caller, value := value }])
    ∧ (balance_of s «from» < value → (transer_from s caller «from» value).2.2 = [])
    ∧ (burn s caller value).2 = []
    ∧ (issue s «to» value).2.2 = [] := by
  refine ⟨?_, ?_, ?_, ?_, ?_, rfl⟩
  · intro hge
    simp only [transer, transfer_helper, if_neg hge]
  · intro hlt
    simp only [transer, transfer_helper, if_pos hlt]
  · intro hge
    simp only [transer_from, transfer_helper, if_neg hge]
  · intro hlt
    simp only [transer_from, transfer_helper, if_pos hlt]
  · simp only [burn]
    split <;> rfl

/-- Witness for the amended C2 at a concrete ledger: a successful `transer`
emits exactly the one event `{from: 1, to: 2, value: 100}`. -/
theorem events_emitted_amended_witness :
    (transer (new 1 1000) 1 2 100).2.2 = [{ «from» := 1, «to» := 2, value := 100 }] :=
  (events_emitted_amended (new 1 1000) 1 2 1 100).1 (by decide)


/-- Claim C6: `total_supply` is set once at construction and never changed
afterward: `transer`, `transer_from`, `burn`, and `issue` all leave
`total_supply` unchanged on every input, and the `total_supply` query returns
the stored field. -/
theorem total_supply_frame (s : Erc20) (caller «to» «from» : AccountId)
    (value init : Balance) :
    (new caller init).total_supply = init
    ∧ total_supply s = s.total_supply
    ∧ (transer s caller «to» value).2.1.total_supply = s.total_supply
    ∧ (transer_from s caller «from» value).2.1.total_supply = s.total_supply
    ∧ (burn s caller value).1.total_supply = s.total_supply
    ∧ (issue s «to» value).2.1.total_supply = s.total_supply :=
  ⟨rfl, rfl, transfer_helper_total_supply s caller «to» value,
   transfer_helper_total_supply s «from» caller value,
   burn_total_supply s caller value, issue_total_supply s «to» value⟩

/-- Claim C7: `issue` always succeeds with `Ok(())`, increases the recipient's
balance by exactly `value` (creating the entry if absent), and leaves every
other account's balance unchanged. -/
theorem issue_always_succeeds_and_credits (s : Erc20) («to» : AccountId) (value : Balance) :
    (issue s «to» value).1 = Except.ok ()
    ∧ balance_of (issue s «to» value).2.1 «to» = balance_of s «to» + value
    ∧ ∀ a, a ≠ «to» → balance_of (issue s «to» value).2.1 a = balance_of s a := by
  refine ⟨rfl, ?_, ?_⟩
  · simp [issue, balance_of, get?_insert]
  · intro a ha
    simp [issue, balance_of, get?_insert, Ne.symm ha]

/-- Witness for C7 at a concrete ledger: issuing 100 to account 2 in
`new 1 1000` leaves account 1's balance unchanged. -/
theorem issue_always_succeeds_and_credits_witness :
    balance_of (issue (new 1 1000) 2 100).2.1 1 = balance_of (new 1 1000) 1 :=
  (issue_always_succeeds_and_credits (new 1 1000) 2 100).2.2 1 (by decide)

/-- Claim C8: `new caller init` yields a ledger with `total_supply = init`,
the caller's balance equal to `init`, every other account's balance `0`, and
an empty allowance map; and the no-argument constructor `default` equals
`new caller 0`. -/
theorem new_initializes_ledger (caller : AccountId) (init : Balance) :
    (new caller init).total_supply = init
    ∧ balance_of (new caller init) caller = init
    ∧ (∀ a, a ≠ caller → balance_of (new caller init) a = 0)
    ∧ (new caller init).allowance = StorageHashMap.new
    ∧ default caller = new caller 0 := by
  refine ⟨rfl, ?_, ?_, rfl, rfl⟩
  · simp [new, balance_of, get?_insert]
  · intro a ha
    simp [new, balance_of, get?_insert, Ne.symm ha, StorageHashMap.get?, StorageHashMap.new]

/-- Witness for C8 at a concrete ledger: in `new 1 1000`, account 2 holds 0. -/
theorem new_initializes_ledger_witness :
    balance_of (new 1 1000) 2 = 0 :=
  (new_initializes_ledger 1 1000).2.2.1 2 (by decide)

/-- Claim C10: no operation writes to the allowance map, so in every ledger
state reachable from a constructor by any sequence of `transer`,
`transer_from`, `burn`, and `issue` calls, the allowance map is empty and the
`allowance` query returns `0` for every (owner, spender) pair. -/
theorem reachable_allowance_empty (s : Erc20) (h : Reachable s) :
    s.allowance = StorageHashMap.new
    ∧ ∀ owner spender, allowance s owner spender = 0 := by
  have key : s.allowance = StorageHashMap.new := by
    induction h with
    | con caller init => rfl
    | con_default caller => rfl
    | step_transer caller «to» value hr ih =>
        rw [transer, transfer_helper_allowance_frame]
        exact ih
    | step_transer_from caller «from» value hr ih =>
        rw [transer_from, transfer_helper_allowance_frame]
        exact ih
    | step_burn caller value hr ih =>
        rw [burn_allowance_frame]
        exact ih
    | step_issue «to» value hr ih =>
        rw [issue_allowance_frame]
        exact ih
  refine ⟨key, ?_⟩
  intro owner spender
  simp [allowance, key, StorageHashMap.new, StorageHashMap.get?]

/-- Witness for C10 at a concrete reachable ledger: after `new 1 5` followed by
a transfer and a burn, the allowance map is still empty and the query reads 0. -/
theorem reachable_allowance_empty_witness :
    (burn (transer (new 1 5) 1 2 3).2.1 2 1).1.allowance = StorageHashMap.new
    ∧ allowance (burn (transer (new 1 5) 1 2 3).2.1 2 1).1 1 2 = 0 :=
  ⟨(reachable_allowance_empty _
      ((Reachable.con 1 5).step_transer 1 2 3 |>.step_burn 2 1)).1,
   (reachable_allowance_empty _
      ((Reachable.con 1 5).step_transer 1 2 3 |>.step_burn 2 1)).2 1 2⟩

end erc20
